import Mathlib

/-!
Verification of the sludge-handling units of QSDsan.

The development embeds, over exact rationals, the two pieces of
numerical logic of the repository:

* `SludgeSeparator` (both the current version in
  `qsdsan/sanunits/_sludge_handling.py` and the older version in
  `sanitation/units/_sludge_separator.py`): the categorical retention
  splitter, the water-balance reconciliation
  (`_adjust_solid_water`), and the split setter.
* `SludgeHandling`: the partition of solids and solubles and the
  moisture objective `_mc_at_split` driving the root finder.

A stream is modelled as a total mass function from component
identifiers (strings) to rational mass flows together with an optional
stored intensive oxygen-demand value; the component registry is a list
of identifiers, and total mass is the sum of the mass function over
that list.  Volumetric flow, which the host thermodynamic engine
derives from composition, is modelled as an abstract function from
mass vectors to rationals, passed as a parameter.
-/

namespace QSDsan

/-- A process stream: per-component mass flows plus the optional stored
intensive oxygen-demand value (the Python attribute hidden behind the
COD property). -/
structure Stream where
  mass : String → ℚ
  cod : Option ℚ

/-- Write a single component mass, leaving every other component and the
stored oxygen-demand value unchanged (the Python `s.imass[c] = v`). -/
def setM (s : Stream) (c : String) (v : ℚ) : Stream :=
  { s with mass := fun x => if x = c then v else s.mass x }

/-- Total mass flow of a stream (the Python `F_mass`): the sum of the
mass function over the component registry. -/
def F_mass (comps : List String) (s : Stream) : ℚ :=
  (comps.map s.mass).sum

@[simp] theorem setM_mass_same (s : Stream) (c : String) (v : ℚ) :
    (setM s c v).mass c = v := by
  simp [setM]

theorem setM_mass_ne (s : Stream) (c x : String) (v : ℚ) (h : x ≠ c) :
    (setM s c v).mass x = s.mass x := by
  simp [setM, h]

@[simp] theorem setM_cod (s : Stream) (c : String) (v : ℚ) :
    (setM s c v).cod = s.cod := rfl

/-- The split specification (`SludgeSeparator.split`): either a single
scalar retention fraction or a mapping from category key to fraction,
iterated in insertion order. -/
inductive SplitSpec where
  | scalar (f : ℚ)
  | categorical (rules : List (String × ℚ))

/-- `SludgeSeparator._adjust_solid_water`: zero the settled-solids
water, set it to `influent.F_mass * settled_frac - sol.F_mass`, clamp a
negative value to zero (recording that the warning fired), and give the
liquid the leftover influent water.  Returns the updated liquid, the
updated solids, and whether the warning was emitted. -/
def adjust_solid_water (comps : List String) (settledFrac : ℚ)
    (influent liq sol : Stream) : Stream × Stream × Bool :=
  let sol1 := setM sol "H2O" 0
  let w := F_mass comps influent * settledFrac - F_mass comps sol1
  let warned := decide (w < 0)
  let solW := if w < 0 then 0 else w
  let sol2 := setM sol1 "H2O" solW
  let liq2 := setM liq "H2O" (influent.mass "H2O" - solW)
  (liq2, sol2, warned)

/-- Modelled from the spec: `Decay.allocate_N_removal` is not among the
source files (only its callers are).  Per the spec, the retained
nitrogen total is allocated between the two nitrogen sub-species so
that neither allocation exceeds the available mass and the total is
preserved; since the callers pass only the retained total and the
influent other-N (non-ammoniacal) mass, the other-N species is drawn
down first and any remainder goes to the ammoniacal species.  A
non-positive total yields the zero allocation.  Returns
(other-N allocation, ammoniacal-N allocation). -/
def allocate_N_removal (totRed preferredN : ℚ) : ℚ × ℚ :=
  if totRed ≤ 0 then (0, 0)
  else if totRed < preferredN then (totRed, 0)
  else (preferredN, totRed - preferredN)

/-- The Python truthiness fallback `waste._COD or waste.COD`: the stored
intensive oxygen-demand value when present and nonzero, else the
externally derived value. -/
def codEff (waste : Stream) (codDerived : ℚ) : ℚ :=
  match waste.cod with
  | some c => if c = 0 then codDerived else c
  | none => codDerived

/-- Loop state of the categorical branch of the current
`SludgeSeparator._run`: the settled-solids stream under construction
and the absolute oxygen-demand shares (`sol_COD`, `liq_COD`), which
start as `None`. -/
structure SepState where
  sol : Stream
  solCOD : Option ℚ
  liqCOD : Option ℚ

/-- One iteration of the categorical loop of the current
`SludgeSeparator._run` (file `qsdsan/sanunits/_sludge_handling.py`):
key TS sets the OtherSS retention, key COD records the absolute
oxygen-demand shares using the influent volumetric flow, key N
allocates the retained nitrogen, and any other key sets that literal
component directly. -/
def applyRuleQ (V : (String → ℚ) → ℚ) (waste : Stream) (codDerived : ℚ)
    (st : SepState) (kv : String × ℚ) : SepState :=
  if kv.1 = "TS" then
    { st with sol := setM st.sol "OtherSS" (kv.2 * waste.mass "OtherSS") }
  else if kv.1 = "COD" then
    let c := codEff waste codDerived
    let solC := kv.2 * c * V waste.mass
    { st with solCOD := some solC, liqCOD := some (c * V waste.mass - solC) }
  else if kv.1 = "N" then
    let nSol := kv.2 * (waste.mass "NH3" + waste.mass "NonNH3")
    let p := allocate_N_removal nSol (waste.mass "NonNH3")
    { st with sol := setM (setM st.sol "NonNH3" p.1) "NH3" p.2 }
  else
    { st with sol := setM st.sol kv.1 (kv.2 * waste.mass kv.1) }

/-- The end-of-run oxygen-demand update
`sol._COD = sol._COD if not sol_COD else sol_COD / sol.F_vol`:
when the recorded absolute share is absent or zero (Python falsiness)
the stored value is kept, otherwise the share divided by the volumetric
flow of the stream itself is stored. -/
def codFinal (share : Option ℚ) (old : Option ℚ) (vol : ℚ) : Option ℚ :=
  match share with
  | none => old
  | some sc => if sc = 0 then old else some (sc / vol)

/-- The current `SludgeSeparator._run`
(`qsdsan/sanunits/_sludge_handling.py`).  `V` is the volumetric-flow
model of the thermodynamic engine, `codDerived` the derived influent
oxygen demand, `liq0` and `sol0` the prior contents of the two outlet
streams.  Returns the liquid, the settled solids, and the
negative-water warning flag. -/
def SludgeSeparator_run (comps : List String) (V : (String → ℚ) → ℚ)
    (split : SplitSpec) (settledFrac codDerived : ℚ)
    (waste liq0 sol0 : Stream) : Stream × Stream × Bool :=
  match split with
  | .scalar f =>
    let sol1 : Stream := ⟨fun c => f * waste.mass c, waste.cod⟩
    let liq1 : Stream := ⟨fun c => waste.mass c - f * waste.mass c, waste.cod⟩
    adjust_solid_water comps settledFrac waste liq1 sol1
  | .categorical rules =>
    let st := rules.foldl (applyRuleQ V waste codDerived) ⟨sol0, none, none⟩
    let liq1 : Stream := { liq0 with mass := fun c => waste.mass c - st.sol.mass c }
    let r := adjust_solid_water comps settledFrac waste liq1 st.sol
    let sol3 := { r.2.1 with cod := codFinal st.solCOD r.2.1.cod (V r.2.1.mass) }
    let liq3 := { r.1 with cod := codFinal st.liqCOD r.1.cod (V r.1.mass) }
    (liq3, sol3, r.2.2)

/-- One iteration of the categorical loop of the older
`SludgeSeparator._run` (file `sanitation/units/_sludge_separator.py`).
It differs from the current version only at key COD, where it stores
intensive oxygen-demand values on the two outlets immediately, using
the stored influent value directly; a missing stored value makes the
Python multiplication fail, modelled as `none`. -/
def applyRuleOld (waste : Stream)
    (st : Option (Stream × Stream)) (kv : String × ℚ) :
    Option (Stream × Stream) :=
  match st with
  | none => none
  | some (liq, sol) =>
    if kv.1 = "TS" then
      some (liq, setM sol "OtherSS" (kv.2 * waste.mass "OtherSS"))
    else if kv.1 = "COD" then
      match waste.cod with
      | none => none
      | some c =>
        some ({ liq with cod := some (c - kv.2 * c) },
              { sol with cod := some (kv.2 * c) })
    else if kv.1 = "N" then
      let nSol := kv.2 * (waste.mass "NH3" + waste.mass "NonNH3")
      let p := allocate_N_removal nSol (waste.mass "NonNH3")
      some (liq, setM (setM sol "NonNH3" p.1) "NH3" p.2)
    else
      some (liq, setM sol kv.1 (kv.2 * waste.mass kv.1))

/-- The older `SludgeSeparator._run`
(`sanitation/units/_sludge_separator.py`): identical to the current
version except for the oxygen-demand handling (see `applyRuleOld`) and
the absence of the end-of-run intensive conversion.  `none` models the
run aborting on a missing stored influent oxygen demand under a COD
rule. -/
def SludgeSeparator_run_old (comps : List String) (split : SplitSpec)
    (settledFrac : ℚ) (waste liq0 sol0 : Stream) :
    Option (Stream × Stream × Bool) :=
  match split with
  | .scalar f =>
    let sol1 : Stream := ⟨fun c => f * waste.mass c, waste.cod⟩
    let liq1 : Stream := ⟨fun c => waste.mass c - f * waste.mass c, waste.cod⟩
    some (adjust_solid_water comps settledFrac waste liq1 sol1)
  | .categorical rules =>
    match rules.foldl (applyRuleOld waste) (some (liq0, sol0)) with
    | none => none
    | some (liq, sol) =>
      let liq1 : Stream := { liq with mass := fun c => waste.mass c - sol.mass c }
      some (adjust_solid_water comps settledFrac waste liq1 sol)

/-- A Python value offered to the `SludgeSeparator.split` setter:
a number, a string parseable as a float, a non-numeric string, a
dict, `None`, or anything else. -/
inductive PyVal where
  | num (q : ℚ)
  | numStr (q : ℚ)
  | str (s : String)
  | dict (d : List (String × ℚ))
  | pyNone
  | other

/-- The Python conversion `float(i)`: succeeds exactly on numbers and
numeric strings; every other value raises, which the bare `except` of
the setter catches. -/
def floatConv : PyVal → Option ℚ
  | .num q => some q
  | .numStr q => some q
  | _ => none

/-- The stored split together with the recorded `_split_type`. -/
inductive SplitSetting where
  | floatSplit (f : ℚ)
  | dictSplit (d : List (String × ℚ))

/-- The `SludgeSeparator.split` setter: try `float(i)` and store the
scalar on success; on any failure store the value when it is a dict,
otherwise raise the type-mismatch message. -/
def split_setter (i : PyVal) : Except String SplitSetting :=
  match floatConv i with
  | some f => .ok (.floatSplit f)
  | none =>
    match i with
    | .dict d => .ok (.dictSplit d)
    | _ => .error "Only float or dict allowed"

/-- Write the masses of the listed components from a given mass vector,
leaving every other component unchanged (the slice assignment
`s.imass[IDs] = values`). -/
def setMassOn (s : Stream) (cs : List String) (f : String → ℚ) : Stream :=
  { s with mass := fun c => if c ∈ cs then f c else s.mass c }

/-- `SludgeHandling._mc_at_split`: give the effluent `split` times the
soluble masses of the mixed influent, give the sludge the rest, and
return both updated streams with the moisture residual
(sludge water over sludge total mass, minus the target). -/
def mc_at_split (comps solubles : List String) (split : ℚ)
    (mixed eff sludge : Stream) (targetMC : ℚ) :
    Stream × Stream × ℚ :=
  let eff1 := setMassOn eff solubles (fun c => mixed.mass c * split)
  let sludge1 := setMassOn sludge solubles (fun c => mixed.mass c - eff1.mass c)
  (eff1, sludge1, sludge1.mass "Water" / F_mass comps sludge1 - targetMC)

/-- The flow assignments of `SludgeHandling._run` evaluated at a split
value `x`: the sludge takes the solid components of the mixed influent
(which are removed from it), the effluent takes the soluble ones, and
`_mc_at_split` is applied at `x`.  The root finder only re-evaluates
this map at successive `x`, so the streams after `_run` are its value
at the final split. -/
def SludgeHandling_run_at (comps solids : List String)
    (mixed eff0 sludge0 : Stream) (x targetMC : ℚ) :
    Stream × Stream × ℚ :=
  let solubles := comps.filter (fun c => ¬ c ∈ solids)
  let sludge1 := setMassOn sludge0 solids mixed.mass
  let mixed1 := setMassOn mixed solids (fun _ => 0)
  let eff1 := setMassOn eff0 solubles mixed1.mass
  mc_at_split comps solubles x mixed1 eff1 sludge1 targetMC

/-! Helper lemmas. -/

theorem adjust_liq_mass_ne (comps : List String) (sf : ℚ)
    (influent liq sol : Stream) (c : String) (hc : c ≠ "H2O") :
    (adjust_solid_water comps sf influent liq sol).1.mass c = liq.mass c := by
  simp [adjust_solid_water, setM_mass_ne _ _ _ _ hc]

theorem adjust_sol_mass_ne (comps : List String) (sf : ℚ)
    (influent liq sol : Stream) (c : String) (hc : c ≠ "H2O") :
    (adjust_solid_water comps sf influent liq sol).2.1.mass c = sol.mass c := by
  simp [adjust_solid_water, setM_mass_ne _ _ _ _ hc]

theorem F_mass_setM_of_not_mem (comps : List String) (s : Stream)
    (c : String) (v : ℚ) (h : ∀ x ∈ comps, x ≠ c) :
    F_mass comps (setM s c v) = F_mass comps s := by
  induction comps with
  | nil => rfl
  | cons a l ih =>
    have ha : a ≠ c := h a (List.mem_cons_self a l)
    have hl : ∀ x ∈ l, x ≠ c := fun x hx => h x (List.mem_cons_of_mem a hx)
    show (setM s c v).mass a + F_mass l (setM s c v) = s.mass a + F_mass l s
    rw [setM_mass_ne _ _ _ _ ha, ih hl]

theorem F_mass_setM (comps : List String) (s : Stream) (c : String) (v : ℚ)
    (hnd : comps.Nodup) (hm : c ∈ comps) :
    F_mass comps (setM s c v) = F_mass comps s - s.mass c + v := by
  induction comps with
  | nil => cases hm
  | cons a l ih =>
    have hnd1 := List.nodup_cons.mp hnd
    show (setM s c v).mass a + F_mass l (setM s c v)
        = s.mass a + F_mass l s - s.mass c + v
    rcases List.mem_cons.mp hm with h | h
    · subst h
      have hnot : ∀ x ∈ l, x ≠ c := by
        intro x hx hxa
        exact hnd1.1 (hxa ▸ hx)
      rw [setM_mass_same, F_mass_setM_of_not_mem l s c v hnot]
      ring
    · have ha : a ≠ c := by
        intro hac
        exact hnd1.1 (hac ▸ h)
      rw [setM_mass_ne _ _ _ _ ha, ih hnd1.2 h]
      ring

/-! Concrete test data used by witnesses and counterexamples. -/

/-- The all-zero stream with no stored oxygen demand. -/
def zeroS : Stream := ⟨fun _ => 0, none⟩

/-- A stream with 10 units of water and 90 units of other solids. -/
def infWS : Stream :=
  ⟨fun c => if c = "H2O" then 10 else if c = "OtherSS" then 90 else 0, none⟩

/-- A settled-solids stream carrying 50 units of other solids. -/
def solFifty : Stream :=
  ⟨fun c => if c = "OtherSS" then 50 else 0, none⟩

/-- A stream with 10 units of water and 4 units of other solids. -/
def wasteWS4 : Stream :=
  ⟨fun c => if c = "H2O" then 10 else if c = "OtherSS" then 4 else 0, none⟩

/-- A stream with 10 units of ammoniacal N and 40 units of other N. -/
def wasteN : Stream :=
  ⟨fun c => if c = "NH3" then 10 else if c = "NonNH3" then 40 else 0, none⟩

/-- The empty loop state of the categorical branch. -/
def stZero : SepState := ⟨zeroS, none, none⟩

/-- A concrete volumetric-flow model: the volume tracks the water mass. -/
def VH2O : (String → ℚ) → ℚ := fun m => m "H2O"

/-! The claims. -/

/-- C1: for every influent stream and every split specification (scalar
or categorical), `SludgeSeparator._run` partitions each non-water
component exactly: the liquid mass plus the settled-solids mass of the
component equals its influent mass (exactly, in the rational model). -/
theorem C1_mass_conservation (comps : List String) (V : (String → ℚ) → ℚ)
    (split : SplitSpec) (sf codD : ℚ) (waste liq0 sol0 : Stream)
    (c : String) (hc : c ≠ "H2O") :
    (SludgeSeparator_run comps V split sf codD waste liq0 sol0).1.mass c
      + (SludgeSeparator_run comps V split sf codD waste liq0 sol0).2.1.mass c
      = waste.mass c := by
  cases split with
  | scalar f =>
    simp only [SludgeSeparator_run]
    rw [adjust_liq_mass_ne _ _ _ _ _ _ hc, adjust_sol_mass_ne _ _ _ _ _ _ hc]
    ring
  | categorical rules =>
    simp only [SludgeSeparator_run]
    rw [adjust_liq_mass_ne _ _ _ _ _ _ hc, adjust_sol_mass_ne _ _ _ _ _ _ hc]
    ring

/-- Witness for C1 at a concrete influent, scalar split and component. -/
theorem C1_mass_conservation_witness :
    (("OtherSS" : String) ≠ "H2O") ∧
    (SludgeSeparator_run ["H2O", "OtherSS"] VH2O
        (SplitSpec.scalar (1/2)) (1/2) 0 wasteWS4 zeroS zeroS).1.mass "OtherSS"
      + (SludgeSeparator_run ["H2O", "OtherSS"] VH2O
        (SplitSpec.scalar (1/2)) (1/2) 0 wasteWS4 zeroS zeroS).2.1.mass "OtherSS"
      = wasteWS4.mass "OtherSS" :=
  ⟨by decide,
   C1_mass_conservation ["H2O", "OtherSS"] VH2O
     (SplitSpec.scalar (1/2)) (1/2) 0 wasteWS4 zeroS zeroS "OtherSS" (by decide)⟩

/-- C2: `_adjust_solid_water` sets the settled-solids water to
`max 0 (settled_frac * influent_total_mass - retentate_nonwater_mass)`,
and the non-fatal warning fires exactly when the unclamped value is
negative, in which case the settled-solids water is exactly zero. -/
theorem C2_water_clamp (comps : List String) (sf : ℚ)
    (influent liq sol : Stream)
    (hnd : comps.Nodup) (hw : "H2O" ∈ comps) :
    (adjust_solid_water comps sf influent liq sol).2.1.mass "H2O"
        = max 0 (sf * F_mass comps influent
            - (F_mass comps sol - sol.mass "H2O")) ∧
    ((adjust_solid_water comps sf influent liq sol).2.2 = true
        ↔ sf * F_mass comps influent
            - (F_mass comps sol - sol.mass "H2O") < 0) ∧
    (sf * F_mass comps influent - (F_mass comps sol - sol.mass "H2O") < 0 →
      (adjust_solid_water comps sf influent liq sol).2.1.mass "H2O" = 0) := by
  have hnw : F_mass comps (setM sol "H2O" 0)
      = F_mass comps sol - sol.mass "H2O" := by
    rw [F_mass_setM comps sol "H2O" 0 hnd hw]
    ring
  constructor
  · simp only [adjust_solid_water, setM_mass_same, hnw]
    rcases lt_or_le (F_mass comps influent * sf
        - (F_mass comps sol - sol.mass "H2O")) 0 with h | h
    · rw [if_pos h, max_eq_left]
      nlinarith [h]
    · rw [if_neg (not_lt.mpr h), max_eq_right]
      · ring
      · nlinarith [h]
  constructor
  · simp only [adjust_solid_water, hnw, decide_eq_true_eq]
    constructor
    · intro h
      nlinarith [h]
    · intro h
      nlinarith [h]
  · intro h
    simp only [adjust_solid_water, setM_mass_same, hnw]
    rw [if_pos (by nlinarith [h])]

/-- Witness for C2 at a concrete infeasible configuration (target mass
10, nonwater settled solids 50): the clamp fires. -/
theorem C2_water_clamp_witness :
    (["H2O", "OtherSS"] : List String).Nodup ∧
    ("H2O" : String) ∈ (["H2O", "OtherSS"] : List String) ∧
    ((adjust_solid_water ["H2O", "OtherSS"] (1/10) infWS zeroS solFifty).2.1.mass "H2O"
      = max 0 ((1/10) * F_mass ["H2O", "OtherSS"] infWS
          - (F_mass ["H2O", "OtherSS"] solFifty - solFifty.mass "H2O"))) :=
  ⟨by decide, by decide,
   (C2_water_clamp ["H2O", "OtherSS"] (1/10) infWS zeroS solFifty
      (by decide) (by decide)).1⟩

/-- C3 fails as stated: with influent water 10, other solids 90,
settled fraction 1 (inside [0,1]) and an empty settled-solids stream,
the effluent water computed by `_adjust_solid_water` is -90, strictly
negative. -/
theorem C3_counterexample :
    ((0:ℚ) ≤ 1 ∧ (1:ℚ) ≤ 1) ∧
    (adjust_solid_water ["H2O", "OtherSS"] 1 infWS zeroS zeroS).1.mass "H2O" < 0 := by
  refine ⟨⟨by norm_num, by norm_num⟩, ?_⟩
  norm_num +decide [adjust_solid_water, setM, F_mass, infWS, zeroS]

/-- C3 (amended): after `_adjust_solid_water` the effluent water equals
the influent water minus the settled-solids water, and it is
non-negative provided the influent water is non-negative and the
settled-mass target `settled_frac * influent_total_mass` does not
exceed the influent water plus the settled-solids nonwater mass; the
code has no enforcement beyond the clamp on the settled-solids water,
and without the added bound the effluent water can be negative. -/
theorem C3_effluent_water_nonneg (comps : List String) (sf : ℚ)
    (influent liq sol : Stream)
    (h0 : 0 ≤ influent.mass "H2O")
    (hb : F_mass comps influent * sf
        ≤ influent.mass "H2O" + F_mass comps (setM sol "H2O" 0)) :
    (adjust_solid_water comps sf influent liq sol).1.mass "H2O"
        = influent.mass "H2O"
          - (adjust_solid_water comps sf influent liq sol).2.1.mass "H2O" ∧
    0 ≤ (adjust_solid_water comps sf influent liq sol).1.mass "H2O" := by
  simp only [adjust_solid_water, setM_mass_same]
  rcases lt_or_le (F_mass comps influent * sf
      - F_mass comps (setM sol "H2O" 0)) 0 with h | h
  · rw [if_pos h]
    exact ⟨by ring, by linarith⟩
  · rw [if_neg (not_lt.mpr h)]
    exact ⟨by ring, by linarith⟩

/-- Witness for the amended C3 at a concrete feasible configuration. -/
theorem C3_effluent_water_nonneg_witness :
    ((0:ℚ) ≤ infWS.mass "H2O") ∧
    (F_mass ["H2O", "OtherSS"] infWS * (1/10)
      ≤ infWS.mass "H2O" + F_mass ["H2O", "OtherSS"] (setM zeroS "H2O" 0)) ∧
    0 ≤ (adjust_solid_water ["H2O", "OtherSS"] (1/10) infWS zeroS zeroS).1.mass "H2O" :=
  ⟨by norm_num +decide [infWS], by norm_num +decide [F_mass, setM, infWS, zeroS],
   (C3_effluent_water_nonneg ["H2O", "OtherSS"] (1/10) infWS zeroS zeroS
      (by norm_num +decide [infWS])
      (by norm_num +decide [F_mass, setM, infWS, zeroS])).2⟩

/-- C4: applying the nitrogen rule of the categorical split with
fraction f in [0,1] to an influent with non-negative ammoniacal mass
a (NH3) and other-N mass o (NonNH3) yields settled-solids allocations
with 0 <= NH3_ret <= a, 0 <= NonNH3_ret <= o, and
NH3_ret + NonNH3_ret = f * (a + o).  The allocation function is
modelled from the spec (`allocate_N_removal` is not among the source
files). -/
theorem C4_nitrogen_allocation (V : (String → ℚ) → ℚ) (waste : Stream)
    (codD f : ℚ) (st : SepState)
    (hf0 : 0 ≤ f) (hf1 : f ≤ 1)
    (ha : 0 ≤ waste.mass "NH3") (ho : 0 ≤ waste.mass "NonNH3") :
    0 ≤ (applyRuleQ V waste codD st ("N", f)).sol.mass "NH3" ∧
    (applyRuleQ V waste codD st ("N", f)).sol.mass "NH3" ≤ waste.mass "NH3" ∧
    0 ≤ (applyRuleQ V waste codD st ("N", f)).sol.mass "NonNH3" ∧
    (applyRuleQ V waste codD st ("N", f)).sol.mass "NonNH3" ≤ waste.mass "NonNH3" ∧
    (applyRuleQ V waste codD st ("N", f)).sol.mass "NH3"
        + (applyRuleQ V waste codD st ("N", f)).sol.mass "NonNH3"
      = f * (waste.mass "NH3" + waste.mass "NonNH3") := by
  set a := waste.mass "NH3" with hadef
  set o := waste.mass "NonNH3" with hodef
  have hmass : (applyRuleQ V waste codD st ("N", f)).sol.mass "NH3"
        = (allocate_N_removal (f * (a + o)) o).2
      ∧ (applyRuleQ V waste codD st ("N", f)).sol.mass "NonNH3"
        = (allocate_N_removal (f * (a + o)) o).1 := by
    constructor
    · simp [applyRuleQ]
    · have hne : ("NonNH3" : String) ≠ "NH3" := by decide
      simp [applyRuleQ, setM_mass_ne _ _ _ _ hne]
  rw [hmass.1, hmass.2]
  have hfa : f * a ≤ a := by nlinarith
  have hfo : f * o ≤ o := by nlinarith
  have hN0 : 0 ≤ f * (a + o) := by nlinarith
  unfold allocate_N_removal
  rcases le_or_lt (f * (a + o)) 0 with h1 | h1
  · have : f * (a + o) = 0 := le_antisymm h1 hN0
    rw [if_pos h1]
    simp [this]
    exact ⟨ha, ho⟩
  · rw [if_neg (not_le.mpr h1)]
    rcases lt_or_le (f * (a + o)) o with h2 | h2
    · rw [if_pos h2]
      dsimp only
      exact ⟨le_refl 0, ha, le_of_lt h1, le_of_lt h2, by ring⟩
    · rw [if_neg (not_lt.mpr h2)]
      dsimp only
      refine ⟨by linarith, by nlinarith, ho, le_refl o, by ring⟩

/-- Witness for C4 at the spec scenario: f = 1/2, NH3 = 10,
NonNH3 = 40; the other-N species is drawn down first, so the
allocations are NH3_ret = 0 and NonNH3_ret = 25, summing to 25. -/
theorem C4_nitrogen_allocation_witness :
    ((0:ℚ) ≤ 1/2 ∧ (1/2:ℚ) ≤ 1 ∧
      (0:ℚ) ≤ wasteN.mass "NH3" ∧ (0:ℚ) ≤ wasteN.mass "NonNH3") ∧
    (applyRuleQ VH2O wasteN 0 stZero ("N", 1/2)).sol.mass "NH3"
      + (applyRuleQ VH2O wasteN 0 stZero ("N", 1/2)).sol.mass "NonNH3"
      = (1/2 : ℚ) * (wasteN.mass "NH3" + wasteN.mass "NonNH3") :=
  ⟨⟨by norm_num, by norm_num, by norm_num +decide [wasteN], by norm_num +decide [wasteN]⟩,
   (C4_nitrogen_allocation VH2O wasteN 0 (1/2) stZero
      (by norm_num) (by norm_num)
      (by norm_num +decide [wasteN]) (by norm_num +decide [wasteN])).2.2.2.2⟩

/-- A categorical rule leaves the settled-solids mass of component c
unchanged whenever it is not a rule that writes c. -/
theorem applyRuleQ_mass_eq (V : (String → ℚ) → ℚ) (waste : Stream)
    (codD : ℚ) (st : SepState) (kv : String × ℚ) (c : String)
    (hTS : kv.1 = "TS" → c ≠ "OtherSS")
    (hN : kv.1 = "N" → c ≠ "NH3" ∧ c ≠ "NonNH3")
    (hLit : kv.1 ≠ "TS" → kv.1 ≠ "COD" → kv.1 ≠ "N" → c ≠ kv.1) :
    (applyRuleQ V waste codD st kv).sol.mass c = st.sol.mass c := by
  by_cases h1 : kv.1 = "TS"
  · simp [applyRuleQ, h1, setM_mass_ne _ _ _ _ (hTS h1)]
  · by_cases h2 : kv.1 = "COD"
    · simp [applyRuleQ, h1, h2]
    · by_cases h3 : kv.1 = "N"
      · simp [applyRuleQ, h1, h2, h3,
          setM_mass_ne _ _ _ _ (hN h3).1, setM_mass_ne _ _ _ _ (hN h3).2]
      · simp [applyRuleQ, h1, h2, h3, setM_mass_ne _ _ _ _ (hLit h1 h2 h3)]

/-- The categorical loop leaves the settled-solids mass of component c
at zero when no rule of the list writes c. -/
theorem foldl_sol_mass_zero (V : (String → ℚ) → ℚ) (waste : Stream)
    (codD : ℚ) (rules : List (String × ℚ)) (c : String)
    (hkv : ∀ kv ∈ rules,
        (kv.1 = "TS" → c ≠ "OtherSS") ∧
        (kv.1 = "N" → c ≠ "NH3" ∧ c ≠ "NonNH3") ∧
        (kv.1 ≠ "TS" → kv.1 ≠ "COD" → kv.1 ≠ "N" → c ≠ kv.1)) :
    ∀ st : SepState, st.sol.mass c = 0 →
      ((rules.foldl (applyRuleQ V waste codD) st).sol.mass c) = 0 := by
  induction rules with
  | nil => intro st h0; exact h0
  | cons kv l ih =>
    intro st h0
    have hhd := hkv kv (List.mem_cons_self kv l)
    have hstep : (applyRuleQ V waste codD st kv).sol.mass c = 0 := by
      rw [applyRuleQ_mass_eq V waste codD st kv c hhd.1 hhd.2.1 hhd.2.2]
      exact h0
    exact ih (fun x hx => hkv x (List.mem_cons_of_mem kv hx))
      (applyRuleQ V waste codD st kv) hstep

/-- C8: in the categorical branch of `SludgeSeparator._run`, starting
from an empty settled-solids stream, every non-water component that is
not explicitly written by a rule (not OtherSS under TS, not NH3 or
NonNH3 under N, and not a literal component key) ends with settled
mass zero: there is no implicit fallback split. -/
theorem C8_no_implicit_fallback (comps : List String)
    (V : (String → ℚ) → ℚ) (sf codD : ℚ) (waste liq0 sol0 : Stream)
    (rules : List (String × ℚ)) (c : String)
    (hsol0 : ∀ x, sol0.mass x = 0)
    (hc : c ≠ "H2O")
    (hTS : ¬ (c = "OtherSS" ∧ "TS" ∈ rules.map Prod.fst))
    (hN : ¬ ((c = "NH3" ∨ c = "NonNH3") ∧ "N" ∈ rules.map Prod.fst))
    (hLit : ¬ (c ∈ rules.map Prod.fst ∧ c ≠ "TS" ∧ c ≠ "COD" ∧ c ≠ "N")) :
    (SludgeSeparator_run comps V (SplitSpec.categorical rules)
        sf codD waste liq0 sol0).2.1.mass c = 0 := by
  have hkv : ∀ kv ∈ rules,
      (kv.1 = "TS" → c ≠ "OtherSS") ∧
      (kv.1 = "N" → c ≠ "NH3" ∧ c ≠ "NonNH3") ∧
      (kv.1 ≠ "TS" → kv.1 ≠ "COD" → kv.1 ≠ "N" → c ≠ kv.1) := by
    intro kv hmem
    have hkey : kv.1 ∈ rules.map Prod.fst := List.mem_map_of_mem Prod.fst hmem
    refine ⟨?_, ?_, ?_⟩
    · intro h1 hco
      exact hTS ⟨hco, h1 ▸ hkey⟩
    · intro h3
      constructor
      · intro hca
        exact hN ⟨Or.inl hca, h3 ▸ hkey⟩
      · intro hcb
        exact hN ⟨Or.inr hcb, h3 ▸ hkey⟩
    · intro h1 h2 h3 hck
      exact hLit ⟨hck ▸ hkey, by rw [hck]; exact h1, by rw [hck]; exact h2,
        by rw [hck]; exact h3⟩
  simp only [SludgeSeparator_run]
  rw [adjust_sol_mass_ne _ _ _ _ _ _ hc]
  exact foldl_sol_mass_zero V waste codD rules c hkv
    ⟨sol0, none, none⟩ (hsol0 c)

/-- Witness for C8: with rules TS and N, an unmentioned component Foo
of an initially empty settled-solids stream stays at zero. -/
theorem C8_no_implicit_fallback_witness :
    (∀ x, zeroS.mass x = 0) ∧
    (SludgeSeparator_run ["H2O", "OtherSS", "Foo"] VH2O
        (SplitSpec.categorical [("TS", 1/2), ("N", 1/4)])
        (1/10) 0 infWS zeroS zeroS).2.1.mass "Foo" = 0 :=
  ⟨fun _ => rfl,
   C8_no_implicit_fallback ["H2O", "OtherSS", "Foo"] VH2O (1/10) 0
     infWS zeroS zeroS [("TS", 1/2), ("N", 1/4)] "Foo"
     (fun _ => rfl) (by decide) (by decide) (by decide) (by decide)⟩

/-- C9: the split setter raises the type-mismatch error exactly when
the value is neither convertible to float nor a dict; a convertible
value is stored as the scalar split and a dict as the categorical
split. -/
theorem C9_split_setter (i : PyVal) :
    ((∃ e, split_setter i = Except.error e)
        ↔ (floatConv i = none ∧ ∀ d, i ≠ PyVal.dict d)) ∧
    (∀ f, floatConv i = some f
        → split_setter i = Except.ok (SplitSetting.floatSplit f)) ∧
    (∀ d, i = PyVal.dict d
        → split_setter i = Except.ok (SplitSetting.dictSplit d)) := by
  cases i <;> simp [split_setter, floatConv]

/-- Witness for C9: the number 3 converts and is stored as the scalar
split. -/
theorem C9_split_setter_witness :
    floatConv (PyVal.num 3) = some 3 ∧
    split_setter (PyVal.num 3) = Except.ok (SplitSetting.floatSplit 3) :=
  ⟨rfl, (C9_split_setter (PyVal.num 3)).2.1 3 rfl⟩

@[simp] theorem setMassOn_mass (s : Stream) (cs : List String)
    (f : String → ℚ) (c : String) :
    (setMassOn s cs f).mass c = if c ∈ cs then f c else s.mass c := rfl

/-- The total soluble mass of a mass vector over the registry. -/
def solublePart (comps solubles : List String) (m : String → ℚ) : ℚ :=
  (comps.map (fun c => if c ∈ solubles then m c else 0)).sum

/-- The total non-soluble mass of a mass vector over the registry. -/
def solidPart (comps solubles : List String) (m : String → ℚ) : ℚ :=
  (comps.map (fun c => if c ∈ solubles then 0 else m c)).sum

/-- C6: in the partition of `SludgeHandling._run`, every solid
component goes entirely to the sludge independently of the split x
(its effluent mass is zero given initially empty effluent solids, its
sludge mass is its influent mass), and every soluble component (a
registry component not classified solid) is split x to the effluent
and 1 - x to the sludge. -/
theorem C6_partition (comps solids : List String)
    (mixed eff0 sludge0 : Stream) (x t : ℚ)
    (heff : ∀ c ∈ solids, eff0.mass c = 0) (c : String) :
    (c ∈ solids →
      (SludgeHandling_run_at comps solids mixed eff0 sludge0 x t).1.mass c = 0 ∧
      (SludgeHandling_run_at comps solids mixed eff0 sludge0 x t).2.1.mass c
        = mixed.mass c) ∧
    (c ∈ comps → c ∉ solids →
      (SludgeHandling_run_at comps solids mixed eff0 sludge0 x t).1.mass c
        = mixed.mass c * x ∧
      (SludgeHandling_run_at comps solids mixed eff0 sludge0 x t).2.1.mass c
        = (1 - x) * mixed.mass c) := by
  constructor
  · intro hc
    have hns : c ∉ comps.filter (fun c => ¬ c ∈ solids) := by
      intro hmem
      have := (List.mem_filter.mp hmem).2
      simp at this
      exact this hc
    refine ⟨?_, ?_⟩
    · simp only [SludgeHandling_run_at, mc_at_split, setMassOn_mass,
        if_neg hns]
      exact heff c hc
    · simp only [SludgeHandling_run_at, mc_at_split, setMassOn_mass,
        if_neg hns, if_pos hc]
  · intro hcm hcs
    have hs : c ∈ comps.filter (fun c => ¬ c ∈ solids) := by
      refine List.mem_filter.mpr ⟨hcm, ?_⟩
      simpa using hcs
    refine ⟨?_, ?_⟩
    · simp only [SludgeHandling_run_at, mc_at_split, setMassOn_mass,
        if_pos hs, if_neg hcs]
    · simp only [SludgeHandling_run_at, mc_at_split, setMassOn_mass,
        if_pos hs, if_neg hcs]
      ring

/-- A concrete mixed influent: 10 units of water, 5 of a solid. -/
def mixedWS : Stream :=
  ⟨fun c => if c = "Water" then 10 else if c = "SolidA" then 5 else 0, none⟩

/-- A concrete sludge carrying 5 units of a solid component. -/
def sludgeA : Stream :=
  ⟨fun c => if c = "SolidA" then 5 else 0, none⟩

/-- Witness for C6 at a concrete mixed influent and solid component. -/
theorem C6_partition_witness :
    (∀ c ∈ (["SolidA"] : List String), zeroS.mass c = 0) ∧
    ("SolidA" : String) ∈ (["SolidA"] : List String) ∧
    ((SludgeHandling_run_at ["Water", "SolidA"] ["SolidA"]
        mixedWS zeroS zeroS (1/4) (1/2)).1.mass "SolidA" = 0 ∧
      (SludgeHandling_run_at ["Water", "SolidA"] ["SolidA"]
        mixedWS zeroS zeroS (1/4) (1/2)).2.1.mass "SolidA"
        = mixedWS.mass "SolidA") :=
  ⟨fun _ _ => rfl, by decide,
   (C6_partition ["Water", "SolidA"] ["SolidA"] mixedWS zeroS zeroS
      (1/4) (1/2) (fun _ _ => rfl) "SolidA").1 (by decide)⟩

/-- The sludge total mass after `_mc_at_split` decomposes linearly in
the split: the soluble part scales by 1 - x, the rest is fixed. -/
theorem F_mass_mc_split (comps solubles : List String)
    (mixed eff sludge : Stream) (x : ℚ) :
    F_mass comps (setMassOn sludge solubles
        (fun c => mixed.mass c
          - (setMassOn eff solubles (fun c => mixed.mass c * x)).mass c))
      = (1 - x) * solublePart comps solubles mixed.mass
        + solidPart comps solubles sludge.mass := by
  induction comps with
  | nil =>
    simp [F_mass, solublePart, solidPart]
  | cons a l ih =>
    show (setMassOn sludge solubles _).mass a + F_mass l _ = _
    rw [ih]
    by_cases ha : a ∈ solubles
    · simp only [setMassOn_mass, if_pos ha, solublePart, solidPart,
        List.map_cons, List.sum_cons]
      ring
    · simp only [setMassOn_mass, if_neg ha, solublePart, solidPart,
        List.map_cons, List.sum_cons]
      ring

/-- Closed form of the `_mc_at_split` residual when water is soluble. -/
theorem mc_at_split_val (comps solubles : List String)
    (mixed eff sludge : Stream) (x t : ℚ) (hw : "Water" ∈ solubles) :
    (mc_at_split comps solubles x mixed eff sludge t).2.2
      = (mixed.mass "Water" * (1 - x))
          / ((1 - x) * solublePart comps solubles mixed.mass
              + solidPart comps solubles sludge.mass) - t := by
  simp only [mc_at_split]
  rw [F_mass_mc_split]
  simp only [setMassOn_mass, if_pos hw]
  ring_nf

/-- C7: the moisture residual computed by `_mc_at_split` (sludge water
over sludge total mass, minus the target), with the solids of the
sludge fixed and the solubles including water split by x, is
non-increasing in x on (0,1) whenever the mixed masses are
non-negative, the mixed water is positive and the fixed solid mass in
the sludge is positive. -/
theorem C7_moisture_monotone (comps solubles : List String)
    (mixed eff sludge : Stream) (t x1 x2 : ℚ)
    (hw : "Water" ∈ solubles)
    (hm : ∀ c, 0 ≤ mixed.mass c)
    (hW : 0 < mixed.mass "Water")
    (hB : 0 < solidPart comps solubles sludge.mass)
    (h01 : 0 < x1) (h12 : x1 < x2) (h21 : x2 < 1) :
    (mc_at_split comps solubles x2 mixed eff sludge t).2.2
      ≤ (mc_at_split comps solubles x1 mixed eff sludge t).2.2 := by
  rw [mc_at_split_val comps solubles mixed eff sludge x1 t hw,
    mc_at_split_val comps solubles mixed eff sludge x2 t hw]
  have hA : 0 ≤ solublePart comps solubles mixed.mass := by
    refine List.sum_nonneg ?_
    intro q hq
    rcases List.mem_map.mp hq with ⟨c, _, rfl⟩
    by_cases hcs : c ∈ solubles
    · simp only [if_pos hcs]
      exact hm c
    · simp only [if_neg hcs]
      exact le_refl 0
  set W := mixed.mass "Water" with hWdef
  set A := solublePart comps solubles mixed.mass with hAdef
  set B := solidPart comps solubles sludge.mass with hBdef
  have ht2 : 0 < 1 - x2 := by linarith
  have ht12 : 1 - x2 < 1 - x1 := by linarith
  have hD1 : 0 < (1 - x1) * A + B := by nlinarith
  have hD2 : 0 < (1 - x2) * A + B := by nlinarith
  have hdiv : W * (1 - x2) / ((1 - x2) * A + B)
      ≤ W * (1 - x1) / ((1 - x1) * A + B) := by
    rw [div_le_div_iff₀ hD2 hD1]
    nlinarith [mul_le_mul_of_nonneg_right
        (mul_le_mul_of_nonneg_left ht12.le hW.le) hB.le,
      mul_nonneg (mul_nonneg hW.le ht2.le) hA]
  linarith

/-- Witness for C7 at a concrete mixed influent and split pair. -/
theorem C7_moisture_monotone_witness :
    (("Water" : String) ∈ (["Water"] : List String) ∧
      (∀ c, 0 ≤ mixedWS.mass c) ∧
      (0:ℚ) < mixedWS.mass "Water" ∧
      0 < solidPart ["Water", "SolidA"] ["Water"] sludgeA.mass ∧
      (0:ℚ) < 1/4 ∧ (1/4:ℚ) < 1/2 ∧ (1/2:ℚ) < 1) ∧
    (mc_at_split ["Water", "SolidA"] ["Water"] (1/2)
        mixedWS zeroS sludgeA (1/2)).2.2
      ≤ (mc_at_split ["Water", "SolidA"] ["Water"] (1/4)
        mixedWS zeroS sludgeA (1/2)).2.2 :=
  ⟨⟨by decide,
    fun c => by
      by_cases h1 : c = "Water"
      · simp [mixedWS, h1]
      · by_cases h2 : c = "SolidA"
        · simp [mixedWS, h1, h2]
        · simp [mixedWS, h1, h2],
    by norm_num +decide [mixedWS],
    by norm_num +decide [solidPart, sludgeA],
    by norm_num, by norm_num, by norm_num⟩,
   C7_moisture_monotone ["Water", "SolidA"] ["Water"] mixedWS zeroS sludgeA
     (1/2) (1/4) (1/2) (by decide)
     (fun c => by
       by_cases h1 : c = "Water"
       · simp [mixedWS, h1]
       · by_cases h2 : c = "SolidA"
         · simp [mixedWS, h1, h2]
         · simp [mixedWS, h1, h2])
     (by norm_num +decide [mixedWS])
     (by norm_num +decide [solidPart, sludgeA])
     (by norm_num) (by norm_num) (by norm_num)⟩

/-- A stream with 10 units of water and a stored oxygen demand of 4. -/
def wasteC5 : Stream := ⟨fun c => if c = "H2O" then 10 else 0, some 4⟩

/-- An empty stream with a stale stored oxygen demand of 7. -/
def solC5 : Stream := ⟨fun _ => 0, some 7⟩

/-- A non-COD categorical rule leaves both recorded oxygen-demand
shares unchanged. -/
theorem applyRuleQ_cod_eq (V : (String → ℚ) → ℚ) (waste : Stream)
    (codD : ℚ) (st : SepState) (kv : String × ℚ) (h : kv.1 ≠ "COD") :
    (applyRuleQ V waste codD st kv).solCOD = st.solCOD ∧
    (applyRuleQ V waste codD st kv).liqCOD = st.liqCOD := by
  by_cases h1 : kv.1 = "TS"
  · simp [applyRuleQ, h1]
  · by_cases h3 : kv.1 = "N"
    · simp [applyRuleQ, h1, h, h3]
    · simp [applyRuleQ, h1, h, h3]

/-- A rule list without COD keys leaves both recorded oxygen-demand
shares unchanged. -/
theorem foldl_cod_eq (V : (String → ℚ) → ℚ) (waste : Stream)
    (codD : ℚ) (rules : List (String × ℚ))
    (h : ∀ kv ∈ rules, kv.1 ≠ "COD") :
    ∀ st : SepState,
      ((rules.foldl (applyRuleQ V waste codD) st).solCOD = st.solCOD ∧
       (rules.foldl (applyRuleQ V waste codD) st).liqCOD = st.liqCOD) := by
  induction rules with
  | nil => intro st; exact ⟨rfl, rfl⟩
  | cons kv l ih =>
    intro st
    have hhd := applyRuleQ_cod_eq V waste codD st kv
      (h kv (List.mem_cons_self kv l))
    have htl := ih (fun x hx => h x (List.mem_cons_of_mem kv hx))
      (applyRuleQ V waste codD st kv)
    exact ⟨htl.1.trans hhd.1, htl.2.trans hhd.2⟩

/-- After a rule list whose last COD entry is `("COD", f)`, the
recorded absolute shares are `f * c * V` and `c * V - f * c * V`, with
c the effective influent oxygen demand and V the influent volumetric
flow. -/
theorem foldl_cod_shares (V : (String → ℚ) → ℚ) (waste : Stream)
    (codD f : ℚ) (pre post : List (String × ℚ))
    (hpost : ∀ kv ∈ post, kv.1 ≠ "COD") (st : SepState) :
    (((pre ++ ("COD", f) :: post).foldl (applyRuleQ V waste codD) st).solCOD
        = some (f * codEff waste codD * V waste.mass)) ∧
    (((pre ++ ("COD", f) :: post).foldl (applyRuleQ V waste codD) st).liqCOD
        = some (codEff waste codD * V waste.mass
            - f * codEff waste codD * V waste.mass)) := by
  rw [List.foldl_append]
  set st1 := pre.foldl (applyRuleQ V waste codD) st
  have hstep :
      (applyRuleQ V waste codD st1 ("COD", f)).solCOD
          = some (f * codEff waste codD * V waste.mass) ∧
      (applyRuleQ V waste codD st1 ("COD", f)).liqCOD
          = some (codEff waste codD * V waste.mass
              - f * codEff waste codD * V waste.mass) := by
    constructor <;> simp +decide [applyRuleQ]
  have h := foldl_cod_eq V waste codD post hpost
    (applyRuleQ V waste codD st1 ("COD", f))
  rw [List.foldl_cons]
  exact ⟨h.1.trans hstep.1, h.2.trans hstep.2⟩

/-- C5 fails as stated: with the categorical split containing COD with
fraction 0, the absolute retentate share is 0 and the claimed stored
value share / volumetric flow is 0, but the code keeps the stale
stored oxygen demand 7 of the settled-solids stream (Python falsiness
of a zero share). -/
theorem C5_counterexample :
    (SludgeSeparator_run ["H2O"] VH2O (SplitSpec.categorical [("COD", 0)])
        (1/2) 0 wasteC5 zeroS solC5).2.1.cod = some 7 ∧
    (0:ℚ) * codEff wasteC5 0 * VH2O wasteC5.mass
        / VH2O (SludgeSeparator_run ["H2O"] VH2O
            (SplitSpec.categorical [("COD", 0)])
            (1/2) 0 wasteC5 zeroS solC5).2.1.mass = 0 ∧
    some (7:ℚ) ≠ some (0:ℚ) := by
  refine ⟨?_, ?_, by simp⟩
  · norm_num +decide [SludgeSeparator_run, applyRuleQ, codEff, codFinal,
      adjust_solid_water, setM, F_mass, VH2O, wasteC5, zeroS, solC5]
  · norm_num

/-- C5 (amended): in the categorical branch whose COD rule (with no
later COD rule) has fraction f, with c the influent oxygen demand (its
stored value if present and nonzero, else the derived value) and
load = c times the influent volumetric flow, the retentate share is
f * load and the effluent share is load - f * load; at the end each
output whose share is nonzero stores its share divided by its own
volumetric flow (an output whose share is zero keeps its previous
stored value, see the counterexample). -/
theorem C5_cod_intensive (comps : List String) (V : (String → ℚ) → ℚ)
    (pre post : List (String × ℚ)) (f sf codD : ℚ)
    (waste liq0 sol0 : Stream)
    (hpost : ∀ kv ∈ post, kv.1 ≠ "COD")
    (hsol : f * codEff waste codD * V waste.mass ≠ 0)
    (hliq : codEff waste codD * V waste.mass
        - f * codEff waste codD * V waste.mass ≠ 0) :
    (SludgeSeparator_run comps V
        (SplitSpec.categorical (pre ++ ("COD", f) :: post))
        sf codD waste liq0 sol0).2.1.cod
      = some ((f * codEff waste codD * V waste.mass)
          / V (SludgeSeparator_run comps V
              (SplitSpec.categorical (pre ++ ("COD", f) :: post))
              sf codD waste liq0 sol0).2.1.mass) ∧
    (SludgeSeparator_run comps V
        (SplitSpec.categorical (pre ++ ("COD", f) :: post))
        sf codD waste liq0 sol0).1.cod
      = some ((codEff waste codD * V waste.mass
            - f * codEff waste codD * V waste.mass)
          / V (SludgeSeparator_run comps V
              (SplitSpec.categorical (pre ++ ("COD", f) :: post))
              sf codD waste liq0 sol0).1.mass) := by
  have hsh := foldl_cod_shares V waste codD f pre post hpost ⟨sol0, none, none⟩
  constructor
  · simp only [SludgeSeparator_run, hsh.1, codFinal]
    rw [if_neg hsol]
  · simp only [SludgeSeparator_run, hsh.2, codFinal]
    rw [if_neg hliq]

/-- Witness for the amended C5: fraction 1/2, stored influent oxygen
demand 4, influent volume 10; both shares are 20 and both outputs end
with volume 5, so both store 20 / 5 = 4. -/
theorem C5_cod_intensive_witness :
    (∀ kv ∈ ([] : List (String × ℚ)), kv.1 ≠ "COD") ∧
    ((1/2:ℚ) * codEff wasteC5 0 * VH2O wasteC5.mass ≠ 0) ∧
    (codEff wasteC5 0 * VH2O wasteC5.mass
        - (1/2:ℚ) * codEff wasteC5 0 * VH2O wasteC5.mass ≠ 0) ∧
    (SludgeSeparator_run ["H2O"] VH2O
        (SplitSpec.categorical ([] ++ ("COD", (1/2:ℚ)) :: []))
        (1/2) 0 wasteC5 zeroS zeroS).2.1.cod
      = some (((1/2:ℚ) * codEff wasteC5 0 * VH2O wasteC5.mass)
          / VH2O (SludgeSeparator_run ["H2O"] VH2O
              (SplitSpec.categorical ([] ++ ("COD", (1/2:ℚ)) :: []))
              (1/2) 0 wasteC5 zeroS zeroS).2.1.mass) :=
  ⟨fun kv h => absurd h (List.not_mem_nil kv),
   by norm_num +decide [codEff, VH2O, wasteC5],
   by norm_num +decide [codEff, VH2O, wasteC5],
   (C5_cod_intensive ["H2O"] VH2O [] [] (1/2) (1/2) 0 wasteC5 zeroS zeroS
      (fun kv h => absurd h (List.not_mem_nil kv))
      (by norm_num +decide [codEff, VH2O, wasteC5])
      (by norm_num +decide [codEff, VH2O, wasteC5])).1⟩

/-- C10 fails as stated: on the same influent (water 10, stored oxygen
demand 4), split {COD: 1/2} and settled fraction 1/2, the current
version stores intensive oxygen demand 4 on the settled solids (share
20 over own volume 5) while the older version stores 2 (half the
influent intensive value). -/
theorem C10_counterexample :
    (SludgeSeparator_run ["H2O"] VH2O (SplitSpec.categorical [("COD", 1/2)])
        (1/2) 0 wasteC5 zeroS zeroS).2.1.cod = some 4 ∧
    (SludgeSeparator_run_old ["H2O"] (SplitSpec.categorical [("COD", 1/2)])
        (1/2) wasteC5 zeroS zeroS).map (fun r => r.2.1.cod)
      = some (some 2) ∧
    ((4:ℚ) ≠ 2) := by
  refine ⟨?_, ?_, by norm_num⟩
  · norm_num +decide [SludgeSeparator_run, applyRuleQ, codEff, codFinal,
      adjust_solid_water, setM, F_mass, VH2O, wasteC5, zeroS]
  · norm_num +decide [SludgeSeparator_run_old, applyRuleOld,
      adjust_solid_water, setM, F_mass, wasteC5, zeroS]

theorem F_mass_congr (comps : List String) (a b : Stream)
    (h : a.mass = b.mass) : F_mass comps a = F_mass comps b := by
  unfold F_mass
  rw [h]

theorem setM_mass_congr (a b : Stream) (c : String) (v : ℚ)
    (h : a.mass = b.mass) : (setM a c v).mass = (setM b c v).mass := by
  show (fun x => if x = c then v else a.mass x)
      = (fun x => if x = c then v else b.mass x)
  rw [h]

/-- `_adjust_solid_water` depends only on the mass vectors of its
arguments: mass-equal inputs give mass-equal outputs and the same
warning flag. -/
theorem adjust_mass_congr (comps : List String) (sf : ℚ)
    (influent liqA liqB solA solB : Stream)
    (hl : liqA.mass = liqB.mass) (hs : solA.mass = solB.mass) :
    (adjust_solid_water comps sf influent liqA solA).1.mass
        = (adjust_solid_water comps sf influent liqB solB).1.mass ∧
    (adjust_solid_water comps sf influent liqA solA).2.1.mass
        = (adjust_solid_water comps sf influent liqB solB).2.1.mass ∧
    (adjust_solid_water comps sf influent liqA solA).2.2
        = (adjust_solid_water comps sf influent liqB solB).2.2 := by
  have h0 : (setM solA "H2O" 0).mass = (setM solB "H2O" 0).mass :=
    setM_mass_congr solA solB "H2O" 0 hs
  have hF : F_mass comps (setM solA "H2O" 0)
      = F_mass comps (setM solB "H2O" 0) :=
    F_mass_congr comps _ _ h0
  refine ⟨?_, ?_, ?_⟩
  · simp only [adjust_solid_water, hF]
    exact setM_mass_congr _ _ _ _ hl
  · simp only [adjust_solid_water, hF]
    exact setM_mass_congr _ _ _ _ h0
  · simp only [adjust_solid_water, hF]

/-- Folding the older loop from a dead state stays dead. -/
theorem foldl_old_none (waste : Stream) (rules : List (String × ℚ)) :
    rules.foldl (applyRuleOld waste) none = none := by
  induction rules with
  | nil => rfl
  | cons kv l ih => exact ih

/-- One step of the two categorical loops: either the older loop dies
on a missing stored oxygen demand, or it produces a settled-solids
stream whose mass vector agrees with the current loop's. -/
theorem step_old_new (V : (String → ℚ) → ℚ) (waste : Stream) (codD : ℚ)
    (stN : SepState) (liq sol : Stream) (hms : sol.mass = stN.sol.mass)
    (kv : String × ℚ) :
    applyRuleOld waste (some (liq, sol)) kv = none ∨
    ∃ lq sl, applyRuleOld waste (some (liq, sol)) kv = some (lq, sl) ∧
      sl.mass = (applyRuleQ V waste codD stN kv).sol.mass := by
  by_cases h1 : kv.1 = "TS"
  · right
    refine ⟨liq, setM sol "OtherSS" (kv.2 * waste.mass "OtherSS"),
      by simp [applyRuleOld, h1], ?_⟩
    have hq : (applyRuleQ V waste codD stN kv).sol
        = setM stN.sol "OtherSS" (kv.2 * waste.mass "OtherSS") := by
      simp [applyRuleQ, h1]
    rw [hq]
    exact setM_mass_congr _ _ _ _ hms
  · by_cases h2 : kv.1 = "COD"
    · rcases hcod : waste.cod with _ | c
      · left
        simp [applyRuleOld, h1, h2, hcod]
      · right
        refine ⟨{ liq with cod := some (c - kv.2 * c) },
          { sol with cod := some (kv.2 * c) },
          by simp [applyRuleOld, h1, h2, hcod], ?_⟩
        have hq : (applyRuleQ V waste codD stN kv).sol = stN.sol := by
          simp [applyRuleQ, h1, h2]
        rw [hq]
        exact hms
    · by_cases h3 : kv.1 = "N"
      · right
        refine ⟨liq, setM (setM sol "NonNH3"
            (allocate_N_removal
              (kv.2 * (waste.mass "NH3" + waste.mass "NonNH3"))
              (waste.mass "NonNH3")).1) "NH3"
            (allocate_N_removal
              (kv.2 * (waste.mass "NH3" + waste.mass "NonNH3"))
              (waste.mass "NonNH3")).2,
          by simp [applyRuleOld, h1, h2, h3], ?_⟩
        have hq : (applyRuleQ V waste codD stN kv).sol
            = setM (setM stN.sol "NonNH3"
                (allocate_N_removal
                  (kv.2 * (waste.mass "NH3" + waste.mass "NonNH3"))
                  (waste.mass "NonNH3")).1) "NH3"
                (allocate_N_removal
                  (kv.2 * (waste.mass "NH3" + waste.mass "NonNH3"))
                  (waste.mass "NonNH3")).2 := by
          simp [applyRuleQ, h1, h2, h3]
        rw [hq]
        exact setM_mass_congr _ _ _ _ (setM_mass_congr _ _ _ _ hms)
      · right
        refine ⟨liq, setM sol kv.1 (kv.2 * waste.mass kv.1),
          by simp [applyRuleOld, h1, h2, h3], ?_⟩
        have hq : (applyRuleQ V waste codD stN kv).sol
            = setM stN.sol kv.1 (kv.2 * waste.mass kv.1) := by
          simp [applyRuleQ, h1, h2, h3]
        rw [hq]
        exact setM_mass_congr _ _ _ _ hms

/-- Whenever the older categorical loop completes, its settled-solids
mass vector agrees with the one of the current loop. -/
theorem foldl_old_new_mass (V : (String → ℚ) → ℚ) (waste : Stream)
    (codD : ℚ) (rules : List (String × ℚ)) :
    ∀ (stN : SepState) (liq sol : Stream), sol.mass = stN.sol.mass →
      ∀ p : Stream × Stream,
        rules.foldl (applyRuleOld waste) (some (liq, sol)) = some p →
        p.2.mass = (rules.foldl (applyRuleQ V waste codD) stN).sol.mass := by
  induction rules with
  | nil =>
    intro stN liq sol hms p hp
    simp only [List.foldl_nil] at hp ⊢
    cases hp
    exact hms
  | cons kv l ih =>
    intro stN liq sol hms p hp
    simp only [List.foldl_cons] at hp ⊢
    rcases step_old_new V waste codD stN liq sol hms kv
      with h | ⟨lq, sl, heq, hmass⟩
    · rw [h, foldl_old_none] at hp
      cases hp
    · rw [heq] at hp
      exact ih _ _ _ hmass p hp

/-- C10 (amended): for the same influent, split and settled fraction,
the two versions of `SludgeSeparator._run` agree on everything except
stored oxygen demand in the categorical branch: with a scalar split the
outputs coincide entirely, and with a categorical split that the older
version completes, both versions produce the same component mass
vectors and the same warning flag (the stored oxygen-demand values may
differ, see the counterexample). -/
theorem C10_mass_equivalence (comps : List String)
    (V : (String → ℚ) → ℚ) (sf codD : ℚ) (waste liq0 sol0 : Stream) :
    (∀ f : ℚ, SludgeSeparator_run_old comps (SplitSpec.scalar f)
        sf waste liq0 sol0
      = some (SludgeSeparator_run comps V (SplitSpec.scalar f)
          sf codD waste liq0 sol0)) ∧
    (∀ (rules : List (String × ℚ)) (l s : Stream) (w : Bool),
      SludgeSeparator_run_old comps (SplitSpec.categorical rules)
          sf waste liq0 sol0 = some (l, s, w) →
      (∀ c, l.mass c
          = (SludgeSeparator_run comps V (SplitSpec.categorical rules)
              sf codD waste liq0 sol0).1.mass c ∧
        s.mass c
          = (SludgeSeparator_run comps V (SplitSpec.categorical rules)
              sf codD waste liq0 sol0).2.1.mass c) ∧
      w = (SludgeSeparator_run comps V (SplitSpec.categorical rules)
          sf codD waste liq0 sol0).2.2) := by
  constructor
  · intro f
    rfl
  · intro rules l s w hp
    simp only [SludgeSeparator_run_old] at hp
    rcases hF : rules.foldl (applyRuleOld waste) (some (liq0, sol0))
      with _ | ⟨lq, sl⟩
    · rw [hF] at hp
      cases hp
    · rw [hF] at hp
      have hmass : sl.mass
          = ((rules.foldl (applyRuleQ V waste codD)
              ⟨sol0, none, none⟩).sol).mass :=
        foldl_old_new_mass V waste codD rules ⟨sol0, none, none⟩
          liq0 sol0 rfl (lq, sl) hF
      have hliq1 : (⟨fun c => waste.mass c - sl.mass c, lq.cod⟩ : Stream).mass
          = (⟨fun c => waste.mass c
              - (rules.foldl (applyRuleQ V waste codD)
                  ⟨sol0, none, none⟩).sol.mass c, liq0.cod⟩ : Stream).mass := by
        show (fun c => waste.mass c - sl.mass c) = _
        rw [hmass]
      have hadj := adjust_mass_congr comps sf waste
        ⟨fun c => waste.mass c - sl.mass c, lq.cod⟩
        ⟨fun c => waste.mass c
            - (rules.foldl (applyRuleQ V waste codD)
                ⟨sol0, none, none⟩).sol.mass c, liq0.cod⟩
        sl ((rules.foldl (applyRuleQ V waste codD) ⟨sol0, none, none⟩).sol)
        hliq1 hmass
      have hp1 : l = (adjust_solid_water comps sf waste
            ⟨fun c => waste.mass c - sl.mass c, lq.cod⟩ sl).1
          ∧ s = (adjust_solid_water comps sf waste
            ⟨fun c => waste.mass c - sl.mass c, lq.cod⟩ sl).2.1
          ∧ w = (adjust_solid_water comps sf waste
            ⟨fun c => waste.mass c - sl.mass c, lq.cod⟩ sl).2.2 := by
      -- the older run packages the adjusted streams directly
        have := hp
        injection this with h
        refine ⟨?_, ?_, ?_⟩
        · exact (congrArg Prod.fst h).symm
        · exact (congrArg (fun q => q.2.1) h).symm
        · exact (congrArg (fun q => q.2.2) h).symm
      refine ⟨?_, ?_⟩
      · intro c
        constructor
        · rw [hp1.1]
          show (adjust_solid_water comps sf waste
              ⟨fun c => waste.mass c - sl.mass c, lq.cod⟩ sl).1.mass c
            = (SludgeSeparator_run comps V (SplitSpec.categorical rules)
                sf codD waste liq0 sol0).1.mass c
          simp only [SludgeSeparator_run]
          rw [congrFun hadj.1 c]
        · rw [hp1.2.1]
          show (adjust_solid_water comps sf waste
              ⟨fun c => waste.mass c - sl.mass c, lq.cod⟩ sl).2.1.mass c
            = (SludgeSeparator_run comps V (SplitSpec.categorical rules)
                sf codD waste liq0 sol0).2.1.mass c
          simp only [SludgeSeparator_run]
          rw [congrFun hadj.2.1 c]
      · rw [hp1.2.2]
        show (adjust_solid_water comps sf waste
            ⟨fun c => waste.mass c - sl.mass c, lq.cod⟩ sl).2.2
          = (SludgeSeparator_run comps V (SplitSpec.categorical rules)
              sf codD waste liq0 sol0).2.2
        simp only [SludgeSeparator_run]
        rw [hadj.2.2]

/-- The result of the older run at a concrete categorical instance. -/
def rOldX : Stream × Stream × Bool :=
  (SludgeSeparator_run_old ["H2O", "OtherSS"]
      (SplitSpec.categorical [("TS", 1/2)]) (1/10) infWS zeroS zeroS).getD
    (zeroS, zeroS, false)

/-- Witness for the amended C10: at a concrete categorical instance the
older run completes and both versions give the same settled mass for
the component OtherSS. -/
theorem C10_mass_equivalence_witness :
    SludgeSeparator_run_old ["H2O", "OtherSS"]
        (SplitSpec.categorical [("TS", 1/2)]) (1/10) infWS zeroS zeroS
      = some (rOldX.1, rOldX.2.1, rOldX.2.2) ∧
    rOldX.2.1.mass "OtherSS"
      = (SludgeSeparator_run ["H2O", "OtherSS"] VH2O
          (SplitSpec.categorical [("TS", 1/2)]) (1/10) 0
          infWS zeroS zeroS).2.1.mass "OtherSS" :=
  ⟨rfl,
   (((C10_mass_equivalence ["H2O", "OtherSS"] VH2O (1/10) 0
        infWS zeroS zeroS).2 [("TS", 1/2)] rOldX.1 rOldX.2.1 rOldX.2.2
        rfl).1 "OtherSS").2⟩

end QSDsan
